import Mathlib

/-!
Verification of the multi-credential pool engine of kiro.rs
(src/kiro/token_manager.rs, src/admin/service.rs, src/kiro/model/usage_limits.rs).

The Rust code is shallowly embedded: each stateful method of
`MultiTokenManager` becomes a pure function on an explicit `PoolState`;
timestamps are passed in as opaque strings; file writes are modelled by
returning the serialized value (`persist_credentials`) or by an outcome
parameter (`set_load_balancing_mode`).
-/

/- ===================== generic list helpers ===================== -/

/-- Replace the first element satisfying `p` by `f` of it
(the embedding of Rust `iter_mut
().find(p)` followed by a mutation of the found element). -/
def updateFirst (p : α → Bool) (f : α → α) : List α → List α
  | [] => []
  | x :: xs => if p x then f x :: xs else x :: updateFirst p f xs

/-- One accumulation step of a running strict minimum by `Nat` key. -/
def minStepNat (key : α → Nat) (acc : Option α) (x : α) : Option α :=
  match acc with
  | none => some x
  | some b => if key x < key b then some x else some b

/-- First element with strictly minimal `Nat` key
(the embedding of Rust `Iterator::min_by_key`, which returns the first
of several equally-minimal elements). -/
def minByNat (key : α → Nat) (l : List α) : Option α :=
  l.foldl (minStepNat key) none

/-- Strict lexicographic order on `Nat × Nat` pairs, as Rust orders tuples. -/
def pairLt (a b : Nat × Nat) : Bool :=
  a.1 < b.1 || (a.1 == b.1 && a.2 < b.2)

/-- One accumulation step of a running strict minimum by `Nat × Nat` key. -/
def minStepPair (key : α → Nat × Nat) (acc : Option α) (x : α) : Option α :=
  match acc with
  | none => some x
  | some b => if pairLt (key x) (key b) then some x else some b

/-- First element with strictly minimal `Nat × Nat` key, lexicographically. -/
def minByPair (key : α → Nat × Nat) (l : List α) : Option α :=
  l.foldl (minStepPair key) none

/-- Does `pat` occur at the head of `cs`? -/
def subAt : List Char → List Char → Bool
  | [], _ => true
  | _ :: _, [] => false
  | p :: ps, c :: cs => p == c && subAt ps cs

/-- Does `pat` occur anywhere in `cs`? -/
def hasSub (pat : List Char) : List Char → Bool
  | [] => subAt pat []
  | c :: cs => subAt pat (c :: cs) || hasSub pat cs

/-- The embedding of Rust `str::contains` for substring patterns. -/
def strContains (s pat : String) : Bool :=
  hasSub pat.toList s.toList

/- ===================== data model ===================== -/

/-- Modelled from the spec: `KiroCredentials` lives in
`src/kiro/model/credentials.rs`, which is not part of the provided
sources.  Per spec §3 and §6.1 the identity fields of a credential are
`id`, `refresh_token` (mandatory), `access_token`, `expires_at`,
`profile_arn`, `auth_method`, `client_id`, `client_secret`, `priority`
(defaults to 0), `region`, `auth_region`, `api_region`, `machine_id`,
`email`, proxy fields, and the `disabled` boolean; all of them are
round-tripped to the credentials file. -/
structure KiroCredentials where
  id : Option Nat
  access_token : Option String
  refresh_token : Option String
  profile_arn : Option String
  expires_at : Option String
  auth_method : Option String
  client_id : Option String
  client_secret : Option String
  priority : Nat
  region : Option String
  machine_id : Option String
  email : Option String
  disabled : Bool
deriving DecidableEq

/-- The embedding of Rust `str::eq_ignore_ascii_case`: equality after
lowering ASCII uppercase letters. -/
def eqIgnoreAsciiCase (a b : String) : Bool :=
  a.toList.map (fun c => if 65 ≤ c.toNat && c.toNat ≤ 90 then c.toNat + 32 else c.toNat)
    == b.toList.map (fun c => if 65 ≤ c.toNat && c.toNat ≤ 90 then c.toNat + 32 else c.toNat)

/-- Modelled from the spec: `canonicalize_auth_method` is declared on
`KiroCredentials` in the missing `model/credentials.rs`; per spec §3
the aliases `builder-id` and `iam` are normalized to `idc` (the sibling
code in `snapshot` and `add_credential` compares them
ASCII-case-insensitively). -/
def canonicalize_auth_method (c : KiroCredentials) : KiroCredentials :=
  match c.auth_method with
  | none => c
  | some m =>
      if eqIgnoreAsciiCase m "builder-id" || eqIgnoreAsciiCase m "iam" then
        { c with auth_method := some "idc" }
      else c

/-- The `DisabledReason` enum of token_manager.rs. -/
inductive DisabledReason where
  | manual
  | tooManyFailures
  | quotaExceeded
deriving DecidableEq

/-- The `CredentialEntry` struct of token_manager.rs. -/
structure CredentialEntry where
  id : Nat
  credentials : KiroCredentials
  failure_count : Nat
  disabled : Bool
  disabled_reason : Option DisabledReason
  success_count : Nat
  last_used_at : Option String
deriving DecidableEq

/-- The mutable state of a `MultiTokenManager`: the entry list, the
sticky current id and the load-balancing mode. -/
structure PoolState where
  entries : List CredentialEntry
  current_id : Nat
  mode : String
deriving DecidableEq

/-- `MAX_FAILURES_PER_CREDENTIAL` in token_manager.rs. -/
def MAX_FAILURES_PER_CREDENTIAL : Nat := 3

deriving instance DecidableEq for Except

/- ===================== boot (MultiTokenManager::new) ===================== -/

/-- The per-credential ingest step of `MultiTokenManager::new`:
canonicalize the auth method, assign `max existing + 1` ids to
credentials without one, backfill `machine_id` through the (abstract,
deterministic) derivation `gen`, and wrap into a fresh entry with zero
runtime counters, `disabled = false` and no disabled reason. -/
def assignIds (gen : KiroCredentials → Option String) :
    Nat → List KiroCredentials → List CredentialEntry
  | _, [] => []
  | nextId, c :: cs =>
      let c := canonicalize_auth_method c
      let p : Nat × KiroCredentials × Nat :=
        match c.id with
        | some i => (i, c, nextId)
        | none => (nextId, { c with id := some nextId }, nextId + 1)
      let id := p.1
      let c := p.2.1
      let nextId' := p.2.2
      let c :=
        match c.machine_id with
        | some _ => c
        | none =>
            match gen c with
            | some m => { c with machine_id := some m }
            | none => c
      { id := id, credentials := c, failure_count := 0, disabled := false,
        disabled_reason := none, success_count := 0, last_used_at := none } ::
        assignIds gen nextId' cs

/-- The embedding of `MultiTokenManager::new` (its pure pool-construction
part: stats-file loading and the backfill persistence are file I/O).
`gen` is the deterministic `machine_id::generate_from_credentials`
derivation, `mode` the configured load-balancing mode. -/
def pool_new (gen : KiroCredentials → Option String) (mode : String)
    (credentials : List KiroCredentials) : Except String PoolState :=
  let maxExisting := (credentials.filterMap (fun c => c.id)).foldl max 0
  let entries := assignIds gen (maxExisting + 1) credentials
  if (entries.map (fun e => e.id)).Nodup then
    let initialId :=
      match minByNat (fun e => e.credentials.priority) entries with
      | some e => e.id
      | none => 0
    Except.ok { entries := entries, current_id := initialId, mode := mode }
  else
    Except.error "检测到重复的凭据 ID"

/- ===================== selection and self-heal ===================== -/

/-- The embedding of `select_next_credential`. -/
def select_next_credential (s : PoolState) : Option (Nat × KiroCredentials) :=
  let available := s.entries.filter (fun e => !e.disabled)
  if available.isEmpty then none
  else if s.mode == "balanced" then
    (minByPair (fun e => (e.success_count, e.credentials.priority)) available).map
      (fun e => (e.id, e.credentials))
  else
    (minByNat (fun e => e.credentials.priority) available).map
      (fun e => (e.id, e.credentials))

/-- The self-heal action applied to one entry inside `acquire_context`:
entries disabled for `TooManyFailures` are re-enabled with the reason
cleared and the failure count reset; all other entries are untouched. -/
def healOne (e : CredentialEntry) : CredentialEntry :=
  if e.disabled_reason = some DisabledReason.tooManyFailures then
    { e with disabled := false, disabled_reason := none, failure_count := 0 }
  else e

/-- The selection phase of one `acquire_context` loop iteration
(everything up to, but not including, `try_ensure_token`, which performs
network I/O): sticky hit in priority mode, otherwise select, with the
one-shot self-heal when no credential is available and some entry was
auto-disabled; `none` as second component is the
"所有凭据均已禁用" (all credentials disabled) bail. -/
def acquire_context_select (s : PoolState) :
    PoolState × Option (Nat × KiroCredentials) :=
  let isBalanced := s.mode == "balanced"
  let currentHit :=
    if isBalanced then none
    else
      (s.entries.find? (fun e => e.id == s.current_id && !e.disabled)).map
        (fun e => (e.id, e.credentials))
  match currentHit with
  | some hit => (s, some hit)
  | none =>
      let best := select_next_credential s
      let p : PoolState × Option (Nat × KiroCredentials) :=
        match best with
        | some b => (s, some b)
        | none =>
            if s.entries.any (fun e =>
                e.disabled && e.disabled_reason == some DisabledReason.tooManyFailures) then
              let s' := { s with entries := s.entries.map healOne }
              (s', select_next_credential s')
            else (s, none)
      match p.2 with
      | some (i, c) => ({ p.1 with current_id := i }, some (i, c))
      | none => (p.1, none)

/- ===================== failure accounting ===================== -/

/-- The embedding of `report_success` (`now` is the RFC3339 timestamp). -/
def report_success (s : PoolState) (id : Nat) (now : String) : PoolState :=
  match s.entries.find? (fun e => e.id == id) with
  | none => s
  | some _ =>
      { s with
        entries := updateFirst (fun e => e.id == id)
          (fun e =>
            { e with failure_count := 0, success_count := e.success_count + 1,
                     last_used_at := some now }) s.entries }

/-- The embedding of `report_failure`; returns the new state and the
`bool` the method returns. -/
def report_failure (s : PoolState) (id : Nat) (now : String) : PoolState × Bool :=
  match s.entries.find? (fun e => e.id == id) with
  | none => (s, s.entries.any (fun e => !e.disabled))
  | some e =>
      let fc := e.failure_count + 1
      let e1 := { e with failure_count := fc, last_used_at := some now }
      let e2 :=
        if fc ≥ MAX_FAILURES_PER_CREDENTIAL then
          { e1 with disabled := true,
                    disabled_reason := some DisabledReason.tooManyFailures }
        else e1
      let entries' := updateFirst (fun x => x.id == id) (fun _ => e2) s.entries
      let current' :=
        if fc ≥ MAX_FAILURES_PER_CREDENTIAL then
          match minByNat (fun x => x.credentials.priority)
              (entries'.filter (fun x => !x.disabled)) with
          | some next => next.id
          | none => s.current_id
        else s.current_id
      ({ s with entries := entries', current_id := current' },
        entries'.any (fun x => !x.disabled))

/-- The embedding of `report_quota_exhausted`. -/
def report_quota_exhausted (s : PoolState) (id : Nat) (now : String) :
    PoolState × Bool :=
  match s.entries.find? (fun e => e.id == id) with
  | none => (s, s.entries.any (fun e => !e.disabled))
  | some e =>
      if e.disabled then (s, s.entries.any (fun x => !x.disabled))
      else
        let e2 := { e with disabled := true,
                           disabled_reason := some DisabledReason.quotaExceeded,
                           last_used_at := some now,
                           failure_count := MAX_FAILURES_PER_CREDENTIAL }
        let entries' := updateFirst (fun x => x.id == id) (fun _ => e2) s.entries
        match minByNat (fun x => x.credentials.priority)
            (entries'.filter (fun x => !x.disabled)) with
        | some next =>
            ({ s with entries := entries', current_id := next.id }, true)
        | none => ({ s with entries := entries' }, false)

/- ===================== admin mutations ===================== -/

/-- The embedding of `set_disabled` (without the trailing file write). -/
def set_disabled (s : PoolState) (id : Nat) (disabled : Bool) :
    Except String PoolState :=
  match s.entries.find? (fun e => e.id == id) with
  | none => Except.error "凭据不存在"
  | some _ =>
      Except.ok
        { s with
          entries := updateFirst (fun e => e.id == id)
            (fun e =>
              if disabled then
                { e with disabled := true,
                         disabled_reason := some DisabledReason.manual }
              else
                { e with disabled := false, failure_count := 0,
                         disabled_reason := none }) s.entries }

/-- The embedding of `select_highest_priority` (re-select the current
credential by priority, not excluding the current one). -/
def select_highest_priority (s : PoolState) : PoolState :=
  match minByNat (fun e => e.credentials.priority)
      (s.entries.filter (fun e => !e.disabled)) with
  | some best => { s with current_id := best.id }
  | none => s

/-- The embedding of `set_priority` (without the trailing file write). -/
def set_priority (s : PoolState) (id : Nat) (priority : Nat) :
    Except String PoolState :=
  match s.entries.find? (fun e => e.id == id) with
  | none => Except.error "凭据不存在"
  | some _ =>
      let s' :=
        { s with
          entries := updateFirst (fun e => e.id == id)
            (fun e =>
              { e with credentials := { e.credentials with priority := priority } })
            s.entries }
      Except.ok (select_highest_priority s')

/-- The embedding of `reset_and_enable` (without the trailing file write). -/
def reset_and_enable (s : PoolState) (id : Nat) : Except String PoolState :=
  match s.entries.find? (fun e => e.id == id) with
  | none => Except.error "凭据不存在"
  | some _ =>
      Except.ok
        { s with
          entries := updateFirst (fun e => e.id == id)
            (fun e =>
              { e with failure_count := 0, disabled := false,
                       disabled_reason := none }) s.entries }

/-- The pool mutation performed by `add_credential` once validation and
the upstream refresh have succeeded: assign `max id + 1` and append a
fresh enabled entry holding the validated credential. -/
def add_credential_entry (s : PoolState) (cred : KiroCredentials) : PoolState :=
  let newId := (s.entries.map (fun e => e.id)).foldl max 0 + 1
  { s with
    entries := s.entries ++
      [{ id := newId, credentials := { cred with id := some newId },
         failure_count := 0, disabled := false, disabled_reason := none,
         success_count := 0, last_used_at := none }] }

/-- The embedding of `delete_credential` (without the trailing file
write). -/
def delete_credential (s : PoolState) (id : Nat) : Except String PoolState :=
  match s.entries.find? (fun e => e.id == id) with
  | none => Except.error "凭据不存在"
  | some e =>
      if !e.disabled then Except.error "只能删除已禁用的凭据（请先禁用凭据）"
      else
        let wasCurrent := s.current_id == id
        let s1 := { s with entries := s.entries.filter (fun x => x.id != id) }
        let s2 := if wasCurrent then select_highest_priority s1 else s1
        let s3 :=
          if s2.entries.isEmpty then { s2 with current_id := 0 } else s2
        Except.ok s3

/-- The embedding of `persist_credentials`: the serialized content of
the credentials file is the list of entry credentials with canonical
auth methods (identity fields only — runtime counters live in the
separate stats file). -/
def persist_credentials (s : PoolState) : List KiroCredentials :=
  s.entries.map (fun e => canonicalize_auth_method e.credentials)

/-- The embedding of `set_load_balancing_mode`: `persistOk` is the
outcome of rewriting the global config file.  Returns the resulting
in-memory mode and whether the call succeeded; on persistence failure
the previous mode is restored before the error is returned. -/
def set_load_balancing_mode (current mode : String) (persistOk : Bool) :
    String × Bool :=
  if mode != "priority" && mode != "balanced" then (current, false)
  else if current == mode then (current, true)
  else if persistOk then (mode, true)
  else (current, false)

/- ===================== usage limits (model/usage_limits.rs) ===================== -/

/-- The `Bonus` struct of usage_limits.rs.  The numeric `f64` fields are
modelled as exact rationals; the code only adds, subtracts, divides and
compares them, and every claim about them states the same expression
the code computes. -/
structure Bonus where
  current_usage : ℚ
  usage_limit : ℚ
  status : Option String
deriving DecidableEq

/-- `Bonus::is_active`. -/
def Bonus.is_active (b : Bonus) : Bool :=
  b.status == some "ACTIVE"

/-- The `FreeTrialInfo` struct of usage_limits.rs. -/
structure FreeTrialInfo where
  current_usage_with_precision : ℚ
  free_trial_expiry : Option ℚ
  free_trial_status : Option String
  usage_limit_with_precision : ℚ
deriving DecidableEq

/-- `FreeTrialInfo::is_active`. -/
def FreeTrialInfo.is_active (t : FreeTrialInfo) : Bool :=
  t.free_trial_status == some "ACTIVE"

/-- The `UsageBreakdown` struct of usage_limits.rs. -/
structure UsageBreakdown where
  current_usage_with_precision : ℚ
  bonuses : List Bonus
  free_trial_info : Option FreeTrialInfo
  usage_limit_with_precision : ℚ
deriving DecidableEq

/-- The `UsageLimitsResponse` struct of usage_limits.rs (only the
fields the derived values read). -/
structure UsageLimitsResponse where
  usage_breakdown_list : List UsageBreakdown
deriving DecidableEq

/-- `UsageLimitsResponse::primary_breakdown`. -/
def UsageLimitsResponse.primary_breakdown (r : UsageLimitsResponse) :
    Option UsageBreakdown :=
  r.usage_breakdown_list.head?

/-- `UsageLimitsResponse::usage_limit`: base limit, plus the active free
trial's limit, plus each active bonus's limit, accumulated in order. -/
def UsageLimitsResponse.usage_limit (r : UsageLimitsResponse) : ℚ :=
  match r.primary_breakdown with
  | none => 0
  | some breakdown =>
      let total := breakdown.usage_limit_with_precision
      let total :=
        match breakdown.free_trial_info with
        | some trial =>
            if trial.is_active then total + trial.usage_limit_with_precision
            else total
        | none => total
      breakdown.bonuses.foldl
        (fun t b => if b.is_active then t + b.usage_limit else t) total

/-- `UsageLimitsResponse::current_usage`: the analogous accumulation of
the current-usage fields. -/
def UsageLimitsResponse.current_usage (r : UsageLimitsResponse) : ℚ :=
  match r.primary_breakdown with
  | none => 0
  | some breakdown =>
      let total := breakdown.current_usage_with_precision
      let total :=
        match breakdown.free_trial_info with
        | some trial =>
            if trial.is_active then total + trial.current_usage_with_precision
            else total
        | none => total
      breakdown.bonuses.foldl
        (fun t b => if b.is_active then t + b.current_usage else t) total

/-- The derived `remaining` computed by `AdminService::fetch_balance`. -/
def fetch_balance_remaining (r : UsageLimitsResponse) : ℚ :=
  max (r.usage_limit - r.current_usage) 0

/-- The derived `usage_percentage` computed by
`AdminService::fetch_balance`. -/
def fetch_balance_usage_percentage (r : UsageLimitsResponse) : ℚ :=
  if r.usage_limit > 0 then min (r.current_usage / r.usage_limit * 100) 100
  else 0

/- ===================== admin error classification ===================== -/

/-- The `AdminServiceError` kinds of admin/error.rs that the
classification functions produce. -/
inductive AdminServiceError where
  | notFound (id : Nat)
  | invalidCredential (msg : String)
  | upstreamError (msg : String)
  | internalError (msg : String)
deriving DecidableEq

/-- The embedding of `AdminService::classify_add_error`. -/
def classify_add_error (msg : String) : AdminServiceError :=
  let is_invalid_credential :=
    strContains msg "缺少 refreshToken" ||
    strContains msg "refreshToken 为空" ||
    strContains msg "refreshToken 已被截断" ||
    strContains msg "凭据已存在" ||
    strContains msg "refreshToken 重复" ||
    strContains msg "凭证已过期或无效" ||
    strContains msg "权限不足" ||
    strContains msg "已被限流"
  if is_invalid_credential then AdminServiceError.invalidCredential msg
  else if strContains msg "error trying to connect" ||
      strContains msg "connection" ||
      strContains msg "timeout" then
    AdminServiceError.upstreamError msg
  else AdminServiceError.internalError msg

/- ===================== refresh barrier (concurrency model) ===================== -/

/-- Phase of one task with respect to the token refresh of
`try_ensure_token` / `get_usage_limits_for`: not refreshing, awaiting
the `refresh_lock`, or inside the guard performing the upstream
refresh request. -/
inductive RefreshPhase where
  | idle
  | waiting
  | refreshing
deriving DecidableEq

/-- State of the process-wide refresh barrier system: the phase of each
task (indexed by `Nat`) and whether the single `refresh_lock`
(`tokio::sync::Mutex`) is held. -/
structure RefreshSystem where
  phase : Nat → RefreshPhase
  lockHeld : Bool

/-- The transitions of the refresh path in `try_ensure_token` and
`get_usage_limits_for`: a task that finds its token expired starts
awaiting the barrier; `refresh_lock.lock().await` returns only when the
lock is free and makes the holder the unique refresher; dropping the
guard after the refresh releases the lock. -/
inductive RefreshStep : RefreshSystem → RefreshSystem → Prop where
  | request (s : RefreshSystem) (i : Nat) :
      s.phase i = RefreshPhase.idle →
      RefreshStep s { phase := Function.update s.phase i RefreshPhase.waiting,
                      lockHeld := s.lockHeld }
  | acquire (s : RefreshSystem) (i : Nat) :
      s.phase i = RefreshPhase.waiting →
      s.lockHeld = false →
      RefreshStep s { phase := Function.update s.phase i RefreshPhase.refreshing,
                      lockHeld := true }
  | finish (s : RefreshSystem) (i : Nat) :
      s.phase i = RefreshPhase.refreshing →
      RefreshStep s { phase := Function.update s.phase i RefreshPhase.idle,
                      lockHeld := false }

/-- The initial refresh-barrier state: no task refreshing, lock free. -/
def refreshInit : RefreshSystem :=
  { phase := fun _ => RefreshPhase.idle, lockHeld := false }

/-- States of the refresh-barrier system reachable from boot. -/
inductive RefreshReachable : RefreshSystem → Prop where
  | init : RefreshReachable refreshInit
  | step {s s' : RefreshSystem} :
      RefreshReachable s → RefreshStep s s' → RefreshReachable s'

/- ===================== helper lemmas ===================== -/

theorem minStepNat_isSome (key : α → Nat) (acc : Option α) (x : α) :
    (minStepNat key acc x).isSome := by
  cases acc with
  | none => rfl
  | some b =>
      simp only [minStepNat]
      split <;> rfl

theorem foldl_minStepNat_isSome (key : α → Nat) (l : List α) :
    ∀ acc : Option α, acc.isSome → (l.foldl (minStepNat key) acc).isSome := by
  induction l with
  | nil => intro acc h; simpa using h
  | cons a as ih => intro acc _; exact ih _ (minStepNat_isSome key acc a)

theorem minByNat_isSome (key : α → Nat) (l : List α) (h : l ≠ []) :
    (minByNat key l).isSome := by
  cases l with
  | nil => exact absurd rfl h
  | cons a as =>
      exact foldl_minStepNat_isSome key as _ (minStepNat_isSome key none a)

theorem minStepPair_isSome (key : α → Nat × Nat) (acc : Option α) (x : α) :
    (minStepPair key acc x).isSome := by
  cases acc with
  | none => rfl
  | some b =>
      simp only [minStepPair]
      split <;> rfl

theorem foldl_minStepPair_isSome (key : α → Nat × Nat) (l : List α) :
    ∀ acc : Option α, acc.isSome → (l.foldl (minStepPair key) acc).isSome := by
  induction l with
  | nil => intro acc h; simpa using h
  | cons a as ih => intro acc _; exact ih _ (minStepPair_isSome key acc a)

theorem minByPair_isSome (key : α → Nat × Nat) (l : List α) (h : l ≠ []) :
    (minByPair key l).isSome := by
  cases l with
  | nil => exact absurd rfl h
  | cons a as =>
      exact foldl_minStepPair_isSome key as _ (minStepPair_isSome key none a)

theorem foldl_minStepNat_mem (key : α → Nat) (l : List α) :
    ∀ (acc : Option α) (a : α), l.foldl (minStepNat key) acc = some a →
      acc = some a ∨ a ∈ l := by
  induction l with
  | nil => intro acc a h; exact Or.inl h
  | cons x xs ih =>
      intro acc a h
      rcases ih _ _ h with h' | h'
      · cases acc with
        | none =>
            simp only [minStepNat] at h'
            exact Or.inr (by simp [Option.some.inj h'])
        | some b =>
            simp only [minStepNat] at h'
            by_cases hk : key x < key b
            · rw [if_pos hk] at h'
              exact Or.inr (by simp [Option.some.inj h'])
            · rw [if_neg hk] at h'
              exact Or.inl h'
      · exact Or.inr (List.mem_cons_of_mem _ h')

theorem minByNat_mem {key : α → Nat} {l : List α} {a : α}
    (h : minByNat key l = some a) : a ∈ l := by
  rcases foldl_minStepNat_mem key l none a h with h' | h'
  · exact absurd h' (by simp)
  · exact h'

theorem foldl_minStepNat_le (key : α → Nat) (l : List α) :
    ∀ (acc : Option α) (a : α), l.foldl (minStepNat key) acc = some a →
      (∀ b, acc = some b → key a ≤ key b) ∧ (∀ b ∈ l, key a ≤ key b) := by
  induction l with
  | nil =>
      intro acc a h
      simp only [List.foldl_nil] at h
      refine ⟨fun b hb => ?_, fun b hb => absurd hb (by simp)⟩
      rw [h] at hb
      rw [Option.some.inj hb]
  | cons x xs ih =>
      intro acc a h
      obtain ⟨h1, h2⟩ := ih (minStepNat key acc x) a h
      constructor
      · intro b hb
        subst hb
        by_cases hk : key x < key b
        · exact le_trans (h1 x (by simp [minStepNat, hk])) (Nat.le_of_lt hk)
        · exact h1 b (by simp [minStepNat, hk])
      · intro b hb
        rcases List.mem_cons.mp hb with rfl | hb'
        · cases acc with
          | none => exact h1 b (by simp [minStepNat])
          | some c =>
              by_cases hk : key b < key c
              · exact h1 b (by simp [minStepNat, hk])
              · exact le_trans (h1 c (by simp [minStepNat, hk]))
                  (Nat.le_of_not_lt hk)
        · exact h2 b hb'

theorem minByNat_le {key : α → Nat} {l : List α} {a : α}
    (h : minByNat key l = some a) : ∀ b ∈ l, key a ≤ key b :=
  (foldl_minStepNat_le key l none a h).2

theorem mem_updateFirst {p : α → Bool} {f : α → α} {l : List α} {x : α}
    (h : x ∈ updateFirst p f l) : x ∈ l ∨ ∃ y ∈ l, p y = true ∧ x = f y := by
  induction l with
  | nil => simp [updateFirst] at h
  | cons a as ih =>
      simp only [updateFirst] at h
      by_cases hp : p a
      · rw [if_pos hp] at h
        rcases List.mem_cons.mp h with rfl | h'
        · exact Or.inr ⟨a, List.mem_cons_self a as, hp, rfl⟩
        · exact Or.inl (List.mem_cons_of_mem _ h')
      · rw [if_neg hp] at h
        rcases List.mem_cons.mp h with rfl | h'
        · exact Or.inl (List.mem_cons_self _ _)
        · rcases ih h' with h'' | ⟨y, hy, hpy, hxy⟩
          · exact Or.inl (List.mem_cons_of_mem _ h'')
          · exact Or.inr ⟨y, List.mem_cons_of_mem _ hy, hpy, hxy⟩

theorem find?_updateFirst_const {p : α → Bool} {e2 : α} {l : List α} {e : α}
    (hl : l.find? p = some e) (he2 : p e2 = true) :
    (updateFirst p (fun _ => e2) l).find? p = some e2 := by
  induction l with
  | nil => simp [List.find?] at hl
  | cons a as ih =>
      by_cases hp : p a
      · simp [updateFirst, hp, List.find?_cons_of_pos, he2]
      · rw [List.find?_cons_of_neg _ hp] at hl
        simp only [updateFirst, if_neg hp]
        rw [List.find?_cons_of_neg _ hp]
        exact ih hl

theorem updateFirst_of_none {p : α → Bool} {f : α → α} {l : List α}
    (h : l.find? p = none) : updateFirst p f l = l := by
  induction l with
  | nil => rfl
  | cons a as ih =>
      rw [List.find?_cons] at h
      split at h
      · exact absurd h (by simp)
      · simp only [updateFirst]
        next hp =>
        rw [if_neg (by simp [hp]), ih h]

theorem foldl_filter_sum (q : α → Bool) (f : α → ℚ) (l : List α) :
    ∀ a : ℚ, l.foldl (fun t b => if q b then t + f b else t) a
      = a + ((l.filter q).map f).sum := by
  induction l with
  | nil => intro a; simp
  | cons x xs ih =>
      intro a
      by_cases hq : q x
      · simp only [List.foldl_cons, List.filter_cons, hq, if_pos, ih,
          List.map_cons, List.sum_cons]
        ring
      · simp [List.foldl_cons, List.filter_cons, hq, ih]

/- ===================== concrete material for witnesses ===================== -/

/-- A concrete well-formed credential. -/
def credA : KiroCredentials :=
  { id := some 1, access_token := some "tokenA",
    refresh_token := some "refreshA", profile_arn := none,
    expires_at := some "2099-01-01T00:00:00Z", auth_method := some "social",
    client_id := none, client_secret := none, priority := 0, region := none,
    machine_id := some "machineA", email := none, disabled := false }

/-- A second concrete credential with a lower priority. -/
def credB : KiroCredentials :=
  { credA with id := some 2, refresh_token := some "refreshB", priority := 1 }

/-- The entry `MultiTokenManager::new` builds from `credA`. -/
def entryA : CredentialEntry :=
  { id := 1, credentials := credA, failure_count := 0, disabled := false,
    disabled_reason := none, success_count := 0, last_used_at := none }

/-- The entry `MultiTokenManager::new` builds from `credB`. -/
def entryB : CredentialEntry :=
  { entryA with id := 2, credentials := credB }

/- ===================== C4 ===================== -/

/-- C4, counterexample: the message `request timed out` contains none of
the `InvalidCredential` fragments and contains the network substring
`timed out`, yet `classify_add_error` returns `InternalError`, because
the add classifier does not test for `timed out` (only the balance
classifier does). -/
theorem c4_counterexample :
    classify_add_error "request timed out" =
      AdminServiceError.internalError "request timed out" ∧
    strContains "request timed out" "timed out" = true ∧
    strContains "request timed out" "error trying to connect" = false ∧
    strContains "request timed out" "connection" = false ∧
    strContains "request timed out" "timeout" = false ∧
    strContains "request timed out" "缺少 refreshToken" = false ∧
    strContains "request timed out" "refreshToken 为空" = false ∧
    strContains "request timed out" "refreshToken 已被截断" = false ∧
    strContains "request timed out" "凭据已存在" = false ∧
    strContains "request timed out" "refreshToken 重复" = false ∧
    strContains "request timed out" "凭证已过期或无效" = false ∧
    strContains "request timed out" "权限不足" = false ∧
    strContains "request timed out" "已被限流" = false := by
  decide

/-- C4, amended: for every `add_credential` error message that contains
none of the `InvalidCredential` fragments, the add-credential error
classification returns `UpstreamError` exactly when the message
contains one of the three network substrings `error trying to connect`,
`connection`, `timeout` (`timed out` is not tested by this classifier),
and `InternalError` otherwise. -/
theorem c4_theorem (msg : String)
    (h1 : strContains msg "缺少 refreshToken" = false)
    (h2 : strContains msg "refreshToken 为空" = false)
    (h3 : strContains msg "refreshToken 已被截断" = false)
    (h4 : strContains msg "凭据已存在" = false)
    (h5 : strContains msg "refreshToken 重复" = false)
    (h6 : strContains msg "凭证已过期或无效" = false)
    (h7 : strContains msg "权限不足" = false)
    (h8 : strContains msg "已被限流" = false) :
    classify_add_error msg =
      if strContains msg "error trying to connect" ||
          strContains msg "connection" || strContains msg "timeout" then
        AdminServiceError.upstreamError msg
      else AdminServiceError.internalError msg := by
  simp [classify_add_error, h1, h2, h3, h4, h5, h6, h7, h8]

/-- C4, witness: the amended classification evaluated on a concrete
connection-error message. -/
theorem c4_theorem_witness :
    strContains "error trying to connect: dns failure" "缺少 refreshToken" = false ∧
    classify_add_error "error trying to connect: dns failure" =
      (if strContains "error trying to connect: dns failure" "error trying to connect" ||
          strContains "error trying to connect: dns failure" "connection" ||
          strContains "error trying to connect: dns failure" "timeout" then
        AdminServiceError.upstreamError "error trying to connect: dns failure"
      else AdminServiceError.internalError "error trying to connect: dns failure") :=
  ⟨by decide,
   c4_theorem "error trying to connect: dns failure" (by decide) (by decide)
     (by decide) (by decide) (by decide) (by decide) (by decide) (by decide)⟩

/- ===================== C8 ===================== -/

/-- C8: `set_load_balancing_mode` rejects every mode outside
`priority`/`balanced` without changing the in-memory mode, and on every
error path (including persistence failure, which reverts the snapshot)
the observable mode is the previous one. -/
theorem c8_theorem (current mode : String) (persistOk : Bool) :
    (mode ≠ "priority" ∧ mode ≠ "balanced" →
      set_load_balancing_mode current mode persistOk = (current, false)) ∧
    ((set_load_balancing_mode current mode persistOk).2 = false →
      (set_load_balancing_mode current mode persistOk).1 = current) := by
  unfold set_load_balancing_mode
  constructor
  · rintro ⟨h1, h2⟩
    rw [if_pos]
    simp [h1, h2]
  · split_ifs <;> simp

/-- C8, witness: a rejected invalid mode and a reverted persistence
failure, both leaving the mode `priority`. -/
theorem c8_theorem_witness :
    set_load_balancing_mode "priority" "bogus" true = ("priority", false) ∧
    (set_load_balancing_mode "priority" "balanced" false).1 = "priority" :=
  ⟨(c8_theorem ("priority") ("bogus") true).1 (by decide),
   (c8_theorem ("priority") ("balanced") false).2 (by decide)⟩

/- ===================== C10 ===================== -/

/-- C10: reporting an outcome for an id bound to no entry leaves the
pool unchanged, and `report_failure`/`report_quota_exhausted` then
return true exactly when some entry is non-disabled. -/
theorem c10_theorem (s : PoolState) (id : Nat) (now : String)
    (h : ∀ e ∈ s.entries, e.id ≠ id) :
    report_success s id now = s ∧
    report_failure s id now = (s, s.entries.any (fun e => !e.disabled)) ∧
    report_quota_exhausted s id now = (s, s.entries.any (fun e => !e.disabled)) ∧
    (s.entries.any (fun e => !e.disabled) = true ↔
      ∃ e ∈ s.entries, e.disabled = false) := by
  have hfind : s.entries.find? (fun e => e.id == id) = none :=
    List.find?_eq_none.mpr (fun x hx => by simp [h x hx])
  refine ⟨?_, ?_, ?_, ?_⟩
  · simp [report_success, hfind]
  · simp [report_failure, hfind]
  · simp [report_quota_exhausted, hfind]
  · simp [List.any_eq_true]

/-- C10, witness: the frame property evaluated on a one-entry pool and
the unbound id 7. -/
theorem c10_theorem_witness :
    report_success { entries := [entryA], current_id := 1, mode := "priority" } 7 "T" =
      { entries := [entryA], current_id := 1, mode := "priority" } ∧
    report_failure { entries := [entryA], current_id := 1, mode := "priority" } 7 "T" =
      ({ entries := [entryA], current_id := 1, mode := "priority" },
        ([entryA].any (fun e => !e.disabled))) ∧
    report_quota_exhausted { entries := [entryA], current_id := 1, mode := "priority" } 7 "T" =
      ({ entries := [entryA], current_id := 1, mode := "priority" },
        ([entryA].any (fun e => !e.disabled))) ∧
    ([entryA].any (fun e => !e.disabled) = true ↔
      ∃ e ∈ [entryA], e.disabled = false) :=
  c10_theorem { entries := [entryA], current_id := 1, mode := "priority" } 7 "T"
    (by decide)

/- ===================== C6 ===================== -/

/-- C6: `usage_limit` is the primary breakdown's precise limit plus the
active free trial's precise limit plus the sum of active bonus limits
(0 on an empty breakdown list); `current_usage` is the analogous sum;
and the derived balance fields satisfy the remaining/percentage
formulas of `fetch_balance`. -/
theorem c6_theorem (r : UsageLimitsResponse) :
    (r.usage_limit =
      match r.usage_breakdown_list.head? with
      | none => 0
      | some b =>
          b.usage_limit_with_precision +
            (match b.free_trial_info with
             | some t =>
                 if t.free_trial_status = some "ACTIVE" then
                   t.usage_limit_with_precision
                 else 0
             | none => 0) +
            ((b.bonuses.filter (fun bo => bo.status == some "ACTIVE")).map
              (fun bo => bo.usage_limit)).sum) ∧
    (r.current_usage =
      match r.usage_breakdown_list.head? with
      | none => 0
      | some b =>
          b.current_usage_with_precision +
            (match b.free_trial_info with
             | some t =>
                 if t.free_trial_status = some "ACTIVE" then
                   t.current_usage_with_precision
                 else 0
             | none => 0) +
            ((b.bonuses.filter (fun bo => bo.status == some "ACTIVE")).map
              (fun bo => bo.current_usage)).sum) ∧
    fetch_balance_remaining r = max (r.usage_limit - r.current_usage) 0 ∧
    fetch_balance_usage_percentage r =
      (if r.usage_limit > 0 then min (r.current_usage / r.usage_limit * 100) 100
       else 0) := by
  refine ⟨?_, ?_, rfl, rfl⟩
  · unfold UsageLimitsResponse.usage_limit UsageLimitsResponse.primary_breakdown
    cases hb : r.usage_breakdown_list.head? with
    | none => rfl
    | some b =>
        simp only
        rw [foldl_filter_sum]
        cases ht : b.free_trial_info with
        | none =>
            simp only [FreeTrialInfo.is_active, Bonus.is_active]
            rw [add_zero]
            rfl
        | some t =>
            by_cases hact : t.free_trial_status = some "ACTIVE"
            · simp only [FreeTrialInfo.is_active, Bonus.is_active, hact,
                beq_self_eq_true, if_true]
              rfl
            · simp only [FreeTrialInfo.is_active, Bonus.is_active,
                beq_iff_eq, hact, if_false, if_neg, not_false_iff]
              rw [add_zero]
              rfl
  · unfold UsageLimitsResponse.current_usage UsageLimitsResponse.primary_breakdown
    cases hb : r.usage_breakdown_list.head? with
    | none => rfl
    | some b =>
        simp only
        rw [foldl_filter_sum]
        cases ht : b.free_trial_info with
        | none =>
            simp only [FreeTrialInfo.is_active, Bonus.is_active]
            rw [add_zero]
            rfl
        | some t =>
            by_cases hact : t.free_trial_status = some "ACTIVE"
            · simp only [FreeTrialInfo.is_active, Bonus.is_active, hact,
                beq_self_eq_true, if_true]
              rfl
            · simp only [FreeTrialInfo.is_active, Bonus.is_active,
                beq_iff_eq, hact, if_false, if_neg, not_false_iff]
              rw [add_zero]
              rfl

/- ===================== C2 ===================== -/

/-- C2: on an id bound to a non-disabled entry, `report_failure`
increments that entry's failure count and stamps `last_used_at`; when
the resulting count reaches the threshold 3 the entry is disabled with
reason `TooManyFailures` and, when a non-disabled entry exists,
`current_id` becomes a minimal-priority one; below the threshold the
disabled state and `current_id` are untouched; the returned flag is
true iff some entry is still non-disabled afterwards. -/
theorem c2_theorem (s : PoolState) (id : Nat) (now : String)
    (e : CredentialEntry)
    (hfind : s.entries.find? (fun x => x.id == id) = some e)
    (hdis : e.disabled = false) :
    ∃ e', (report_failure s id now).1.entries.find? (fun x => x.id == id) = some e' ∧
      e'.failure_count = e.failure_count + 1 ∧
      e'.last_used_at = some now ∧
      (e.failure_count + 1 ≥ MAX_FAILURES_PER_CREDENTIAL →
        e'.disabled = true ∧
        e'.disabled_reason = some DisabledReason.tooManyFailures ∧
        ((∃ x ∈ (report_failure s id now).1.entries, x.disabled = false) →
          ∃ next ∈ (report_failure s id now).1.entries, next.disabled = false ∧
            (report_failure s id now).1.current_id = next.id ∧
            ∀ other ∈ (report_failure s id now).1.entries, other.disabled = false →
              next.credentials.priority ≤ other.credentials.priority)) ∧
      (e.failure_count + 1 < MAX_FAILURES_PER_CREDENTIAL →
        e'.disabled = e.disabled ∧ e'.disabled_reason = e.disabled_reason ∧
        (report_failure s id now).1.current_id = s.current_id) ∧
      ((report_failure s id now).2 = true ↔
        ∃ x ∈ (report_failure s id now).1.entries, x.disabled = false) := by
  have hpe0 := List.find?_some hfind
  have hpe : (e.id == id) = true := hpe0
  by_cases hmax : e.failure_count + 1 ≥ MAX_FAILURES_PER_CREDENTIAL
  · -- threshold reached: the entry is disabled
    simp only [report_failure, hfind, if_pos hmax]
    set e2 : CredentialEntry :=
      { e with failure_count := e.failure_count + 1, last_used_at := some now,
               disabled := true,
               disabled_reason := some DisabledReason.tooManyFailures } with he2
    set entries' := updateFirst (fun x => x.id == id) (fun _ => e2) s.entries
      with hentries'
    refine ⟨e2, ?_, rfl, rfl, ?_, ?_, ?_⟩
    · exact find?_updateFirst_const hfind hpe
    · intro _
      refine ⟨rfl, rfl, ?_⟩
      intro hex
      have hne : entries'.filter (fun x => !x.disabled) ≠ [] := by
        rcases hex with ⟨x, hx, hxd⟩
        intro hnil
        have : x ∈ entries'.filter (fun x => !x.disabled) :=
          List.mem_filter.mpr ⟨hx, by simp [hxd]⟩
        rw [hnil] at this
        exact absurd this (List.not_mem_nil x)
      obtain ⟨next, hnext⟩ := Option.isSome_iff_exists.mp
        (minByNat_isSome (fun x => x.credentials.priority) _ hne)
      have hmem := List.mem_filter.mp (minByNat_mem hnext)
      refine ⟨next, hmem.1, by simpa using hmem.2, ?_, ?_⟩
      · simp only [hnext]
      · intro other hother hotherd
        exact minByNat_le hnext other
          (List.mem_filter.mpr ⟨hother, by simp [hotherd]⟩)
    · intro hlt
      exact absurd hmax (Nat.not_le_of_lt hlt)
    · simp [List.any_eq_true]
  · -- below the threshold
    simp only [report_failure, hfind, if_neg hmax]
    set e2 : CredentialEntry :=
      { e with failure_count := e.failure_count + 1, last_used_at := some now }
      with he2
    refine ⟨e2, ?_, rfl, rfl, ?_, ?_, ?_⟩
    · exact find?_updateFirst_const hfind hpe
    · intro habs
      exact absurd habs hmax
    · intro _
      refine ⟨?_, ?_, ?_⟩
      · try rfl
      · try rfl
      · try rfl
        try trivial
    · simp [List.any_eq_true]

/-- The first witness entry with two failures already recorded. -/
def entryA2 : CredentialEntry := { entryA with failure_count := 2 }

/-- A two-entry pool in which the first entry is one failure away from
being auto-disabled. -/
def poolC2W : PoolState :=
  { entries := [entryA2, entryB], current_id := 1, mode := "priority" }

/-- C2, witness: the third failure on entry 1 of the concrete pool. -/
theorem c2_theorem_witness :
    ∃ e', (report_failure poolC2W 1 "T3").1.entries.find?
        (fun x => x.id == 1) = some e' ∧
      e'.failure_count = entryA2.failure_count + 1 ∧
      e'.last_used_at = some "T3" ∧
      (entryA2.failure_count + 1 ≥ MAX_FAILURES_PER_CREDENTIAL →
        e'.disabled = true ∧
        e'.disabled_reason = some DisabledReason.tooManyFailures ∧
        ((∃ x ∈ (report_failure poolC2W 1 "T3").1.entries, x.disabled = false) →
          ∃ next ∈ (report_failure poolC2W 1 "T3").1.entries,
            next.disabled = false ∧
            (report_failure poolC2W 1 "T3").1.current_id = next.id ∧
            ∀ other ∈ (report_failure poolC2W 1 "T3").1.entries,
              other.disabled = false →
              next.credentials.priority ≤ other.credentials.priority)) ∧
      (entryA2.failure_count + 1 < MAX_FAILURES_PER_CREDENTIAL →
        e'.disabled = entryA2.disabled ∧
        e'.disabled_reason = entryA2.disabled_reason ∧
        (report_failure poolC2W 1 "T3").1.current_id = poolC2W.current_id) ∧
      ((report_failure poolC2W 1 "T3").2 = true ↔
        ∃ x ∈ (report_failure poolC2W 1 "T3").1.entries, x.disabled = false) :=
  c2_theorem poolC2W 1 "T3" entryA2 (by rfl) (by rfl)

/- ===================== C7 ===================== -/

/-- `select_highest_priority` never changes the entry list. -/
theorem select_highest_priority_entries (s : PoolState) :
    (select_highest_priority s).entries = s.entries := by
  unfold select_highest_priority
  split <;> rfl

/-- Evaluation of a successful `delete_credential`. -/
theorem delete_credential_ok {s : PoolState} {id : Nat} {e : CredentialEntry}
    (hfind : s.entries.find? (fun x => x.id == id) = some e)
    (hd : e.disabled = true) :
    delete_credential s id =
      Except.ok
        (if (if s.current_id == id then
              select_highest_priority
                { s with entries := s.entries.filter (fun x => x.id != id) }
             else { s with entries := s.entries.filter (fun x => x.id != id) }).entries.isEmpty
         then
           { (if s.current_id == id then
                select_highest_priority
                  { s with entries := s.entries.filter (fun x => x.id != id) }
              else
                { s with entries := s.entries.filter (fun x => x.id != id) }) with
             current_id := 0 }
         else
           (if s.current_id == id then
              select_highest_priority
                { s with entries := s.entries.filter (fun x => x.id != id) }
            else
              { s with entries := s.entries.filter (fun x => x.id != id) })) := by
  unfold delete_credential
  rw [hfind]
  dsimp only
  rw [hd]
  rfl

/-- C7, amended: `delete_credential` succeeds iff the entry found for
the id is disabled; on success all entries with that id are removed;
the pool left empty resets `current_id` to 0; when the deleted entry
was current and a non-disabled entry remains, `current_id` is
re-selected to a minimal-priority non-disabled entry; when it was not
current (and the pool stays non-empty) `current_id` is unchanged. -/
theorem c7_theorem (s : PoolState) (id : Nat) :
    ((∃ s', delete_credential s id = Except.ok s') ↔
      ∃ e, s.entries.find? (fun x => x.id == id) = some e ∧ e.disabled = true) ∧
    (∀ s', delete_credential s id = Except.ok s' →
      s'.entries = s.entries.filter (fun x => x.id != id) ∧
      (∀ e ∈ s'.entries, e.id ≠ id) ∧
      (s'.entries = [] → s'.current_id = 0) ∧
      (s.current_id = id → s'.entries ≠ [] →
        (∃ x ∈ s'.entries, x.disabled = false) →
        ∃ next ∈ s'.entries, next.disabled = false ∧ s'.current_id = next.id ∧
          ∀ other ∈ s'.entries, other.disabled = false →
            next.credentials.priority ≤ other.credentials.priority) ∧
      (s.current_id ≠ id → s'.entries ≠ [] → s'.current_id = s.current_id)) := by
  cases hfind : s.entries.find? (fun x => x.id == id) with
  | none =>
      constructor
      · constructor
        · rintro ⟨s', hs'⟩
          simp [delete_credential, hfind] at hs'
        · rintro ⟨e, he, _⟩
          exact absurd he (by simp)
      · intro s' hs'
        simp [delete_credential, hfind] at hs'
  | some e =>
      by_cases hd : e.disabled
      · -- deletion succeeds
        have hok := delete_credential_ok hfind hd
        constructor
        · exact ⟨fun _ => ⟨e, rfl, hd⟩, fun _ => ⟨_, hok⟩⟩
        · intro s' hs'
          rw [hok] at hs'
          have hs'' := (Except.ok.injEq _ _).mp hs'
          set s1 : PoolState :=
            { s with entries := s.entries.filter (fun x => x.id != id) } with hs1
          set s2 : PoolState :=
            if s.current_id == id then select_highest_priority s1 else s1
            with hs2
          have hs2entries : s2.entries = s.entries.filter (fun x => x.id != id) := by
            rw [hs2]
            split
            · rw [select_highest_priority_entries]
            · rfl
          have hbig : s' = if s2.entries.isEmpty then { s2 with current_id := 0 }
              else s2 := hs''.symm
          have hentries : s'.entries = s.entries.filter (fun x => x.id != id) := by
            rw [hbig]
            split
            · exact hs2entries
            · exact hs2entries
          refine ⟨hentries, ?_, ?_, ?_, ?_⟩
          · intro x hx
            rw [hentries] at hx
            have := (List.mem_filter.mp hx).2
            simpa using this
          · intro hempty
            rw [hentries] at hempty
            rw [hbig, if_pos (by rw [hs2entries, hempty]; rfl)]
          · intro hcur hne hex
            have hc2 : (s.current_id == id) = true := by simpa using hcur
            have hfilterne : s1.entries.filter (fun x => !x.disabled) ≠ [] := by
              rcases hex with ⟨x, hx, hxd⟩
              rw [hentries] at hx
              intro hnil
              have hxm : x ∈ s1.entries.filter (fun x => !x.disabled) :=
                List.mem_filter.mpr ⟨by rw [hs1]; exact hx, by simp [hxd]⟩
              rw [hnil] at hxm
              exact absurd hxm (List.not_mem_nil x)
            obtain ⟨next, hnext⟩ := Option.isSome_iff_exists.mp
              (minByNat_isSome (fun x => x.credentials.priority) _ hfilterne)
            have hmem := List.mem_filter.mp (minByNat_mem hnext)
            have hs2' : s2 = { s1 with current_id := next.id } := by
              rw [hs2, if_pos hc2]
              unfold select_highest_priority
              rw [hnext]
            have hsfinal : s' = s2 := by
              rw [hbig, if_neg]
              rw [hs2entries]
              intro habs
              rw [hentries] at hne
              rw [List.isEmpty_iff] at habs
              exact hne habs
            refine ⟨next, ?_, by simpa using hmem.2, ?_, ?_⟩
            · rw [hentries]
              have := hmem.1
              rw [hs1] at this
              exact this
            · rw [hsfinal, hs2']
            · intro other hother hotherd
              refine minByNat_le hnext other (List.mem_filter.mpr ⟨?_, ?_⟩)
              · rw [hs1]
                rw [hentries] at hother
                exact hother
              · simp [hotherd]
          · intro hncur hne
            have hc2 : (s.current_id == id) = false := by simpa using hncur
            have hs2' : s2 = s1 := by rw [hs2, hc2]; rfl
            have hsfinal : s' = s2 := by
              rw [hbig, if_neg]
              rw [hs2entries]
              intro habs
              rw [hentries] at hne
              rw [List.isEmpty_iff] at habs
              exact hne habs
            rw [hsfinal, hs2', hs1]
      · -- entry not disabled: deletion fails
        constructor
        · constructor
          · rintro ⟨s', hs'⟩
            simp [delete_credential, hfind, hd] at hs'
          · rintro ⟨e', he', hde'⟩
            obtain rfl := Option.some.inj he'
            exact absurd hde' hd
        · intro s' hs'
          simp [delete_credential, hfind, hd] at hs'

/-- `entryA` after a quota-exhaustion disable. -/
def entryAdis : CredentialEntry :=
  { entryA with disabled := true,
                disabled_reason := some DisabledReason.quotaExceeded,
                failure_count := 3 }

/-- `entryB` after a quota-exhaustion disable. -/
def entryBdis : CredentialEntry :=
  { entryB with disabled := true,
                disabled_reason := some DisabledReason.quotaExceeded,
                failure_count := 3 }

/-- A pool whose entries are all disabled, the current one included. -/
def poolC7C : PoolState :=
  { entries := [entryAdis, entryBdis], current_id := 2, mode := "priority" }

/-- The pool `delete_credential poolC7C 2` produces. -/
def poolC7Cres : PoolState :=
  { entries := [entryAdis], current_id := 2, mode := "priority" }

/-- C7, counterexample: deleting the current (disabled) entry 2 from a
pool whose remaining entry is disabled succeeds, yet `current_id` stays
2 — it is not re-selected to any non-disabled entry (none exists and
the code leaves it dangling), contradicting the claim's unconditional
re-selection. -/
theorem c7_counterexample :
    delete_credential poolC7C 2 = Except.ok poolC7Cres ∧
    poolC7C.current_id = 2 ∧
    poolC7Cres.entries ≠ [] ∧
    poolC7Cres.current_id = 2 ∧
    (∀ e ∈ poolC7Cres.entries, e.id ≠ 2) ∧
    (∀ e ∈ poolC7Cres.entries, e.disabled = true) :=
  ⟨by rfl, rfl, by decide, rfl, by decide, by decide⟩

/-- A pool whose disabled entry 1 is current and whose entry 2 is
enabled. -/
def poolC7W : PoolState :=
  { entries := [entryAdis, entryB], current_id := 1, mode := "priority" }

/-- The pool `delete_credential poolC7W 1` produces. -/
def poolC7Wres : PoolState :=
  { entries := [entryB], current_id := 2, mode := "priority" }

/-- C7, witness: the amended deletion semantics evaluated on the
concrete pool, where the current entry 1 is deleted and entry 2 is
re-selected. -/
theorem c7_theorem_witness :
    poolC7Wres.entries = poolC7W.entries.filter (fun x => x.id != 1) ∧
    (∀ e ∈ poolC7Wres.entries, e.id ≠ 1) ∧
    (poolC7Wres.entries = [] → poolC7Wres.current_id = 0) ∧
    (poolC7W.current_id = 1 → poolC7Wres.entries ≠ [] →
      (∃ x ∈ poolC7Wres.entries, x.disabled = false) →
      ∃ next ∈ poolC7Wres.entries, next.disabled = false ∧
        poolC7Wres.current_id = next.id ∧
        ∀ other ∈ poolC7Wres.entries, other.disabled = false →
          next.credentials.priority ≤ other.credentials.priority) ∧
    (poolC7W.current_id ≠ 1 → poolC7Wres.entries ≠ [] →
      poolC7Wres.current_id = poolC7W.current_id) :=
  (c7_theorem poolC7W 1).2 poolC7Wres (by rfl)

/- ===================== C3 ===================== -/

/-- The entry a reload of the persisted credentials file produces from
an in-memory entry: identical identity (id and credential record),
runtime fields reset, entry enabled. -/
def resetEntry (e : CredentialEntry) : CredentialEntry :=
  { id := e.id, credentials := e.credentials, failure_count := 0,
    disabled := false, disabled_reason := none, success_count := 0,
    last_used_at := none }

/-- Reloading already-ingested credentials (canonical auth method, id
assigned, machine id present) re-creates the entries verbatim with
runtime state reset. -/
theorem assignIds_roundtrip (gen : KiroCredentials → Option String)
    (l : List CredentialEntry)
    (h : ∀ e ∈ l, canonicalize_auth_method e.credentials = e.credentials ∧
      e.credentials.id = some e.id ∧ e.credentials.machine_id.isSome = true) :
    ∀ n, assignIds gen n (l.map (fun e => e.credentials)) = l.map resetEntry := by
  induction l with
  | nil => intro n; rfl
  | cons e l ih =>
      intro n
      obtain ⟨hc, hid, hm⟩ := h e (List.mem_cons_self e l)
      obtain ⟨m, hm'⟩ := Option.isSome_iff_exists.mp hm
      simp only [List.map_cons, assignIds, hc, hid, hm', resetEntry,
        List.cons.injEq]
      exact ⟨trivial, ih (fun x hx => h x (List.mem_cons_of_mem _ hx)) n⟩


/-- C3, amended: for a pool whose entries are well formed (canonical
auth method, credential id matching the entry id, machine id present,
distinct ids), reloading the output of `persist_credentials` through
`MultiTokenManager::new` succeeds and yields the same entries with
identical identity fields (id and full credential record) in order,
runtime fields reset to zero/empty, and — unlike the original claim —
every entry enabled: the entry-level `disabled` flag is not
round-tripped, a reloaded pool starts with `disabled = false`
everywhere. -/
theorem c3_theorem (gen : KiroCredentials → Option String) (mode : String)
    (s : PoolState)
    (hwf : ∀ e ∈ s.entries,
      canonicalize_auth_method e.credentials = e.credentials ∧
      e.credentials.id = some e.id ∧ e.credentials.machine_id.isSome = true)
    (hn : (s.entries.map (fun e => e.id)).Nodup) :
    ∃ s', pool_new gen mode (persist_credentials s) = Except.ok s' ∧
      s'.entries = s.entries.map resetEntry := by
  have hpc : persist_credentials s = s.entries.map (fun e => e.credentials) := by
    unfold persist_credentials
    exact List.map_congr_left (fun e he => (hwf e he).1)
  have hassign := assignIds_roundtrip gen s.entries hwf
  have hids : (s.entries.map resetEntry).map (fun e => e.id) =
      s.entries.map (fun e => e.id) := by
    rw [List.map_map]
    rfl
  unfold pool_new
  rw [hpc]
  simp only [hassign, hids]
  rw [if_pos hn]
  exact ⟨_, rfl, rfl⟩

/-- `entryA` manually disabled through `set_disabled`. -/
def entryAManual : CredentialEntry :=
  { entryA with disabled := true,
                disabled_reason := some DisabledReason.manual }

/-- The pool bootstrapped from `credA` alone. -/
def poolC3W : PoolState :=
  { entries := [entryA], current_id := 1, mode := "priority" }

/-- The pool `poolC3W` after `set_disabled 1 true`. -/
def poolC3WDisabled : PoolState :=
  { entries := [entryAManual], current_id := 1, mode := "priority" }

/-- C3, counterexample: disable entry 1 of a bootstrapped pool, persist
it, and reload: the persisted credential still carries
`disabled = false` (the entry flag is never copied into the credential
record by `set_disabled` or `persist_credentials`) and
`MultiTokenManager::new` starts every entry with `disabled = false`, so
the round trip does not preserve the disabled flag. -/
theorem c3_counterexample :
    pool_new (fun _ => none) "priority" [credA] = Except.ok poolC3W ∧
    set_disabled poolC3W 1 true = Except.ok poolC3WDisabled ∧
    poolC3WDisabled.entries.map (fun e => e.disabled) = [true] ∧
    persist_credentials poolC3WDisabled = [credA] ∧
    credA.disabled = false ∧
    pool_new (fun _ => none) "priority" (persist_credentials poolC3WDisabled) =
      Except.ok poolC3W ∧
    poolC3W.entries.map (fun e => e.disabled) = [false] :=
  ⟨by decide, by decide, by decide, by decide, rfl, by decide, by decide⟩

/-- C3, witness: the amended round trip evaluated on the concrete
disabled pool `poolC3WDisabled`. -/
theorem c3_theorem_witness :
    (∀ e ∈ poolC3WDisabled.entries,
      canonicalize_auth_method e.credentials = e.credentials ∧
      e.credentials.id = some e.id ∧ e.credentials.machine_id.isSome = true) ∧
    ∃ s', pool_new (fun _ => none) "priority"
        (persist_credentials poolC3WDisabled) = Except.ok s' ∧
      s'.entries = poolC3WDisabled.entries.map resetEntry :=
  ⟨by decide,
   c3_theorem (fun _ => none) "priority" poolC3WDisabled (by decide) (by decide)⟩

/- ===================== C1 ===================== -/

/-- C1: when every entry is disabled, `acquire_context`'s selection
phase behaves as follows.  If some entry is disabled for
`TooManyFailures`, the self-heal re-enables exactly those entries
(clearing the reason and the failure count, leaving `Manual` and
`QuotaExceeded` entries untouched), selection is retried on the healed
pool and succeeds, and `current_id` moves to the selected id.  If no
entry has reason `TooManyFailures`, the call fails with the
all-credentials-disabled error and the state is unchanged. -/
theorem c1_theorem (s : PoolState)
    (hAll : ∀ e ∈ s.entries, e.disabled = true) :
    ((∃ e ∈ s.entries, e.disabled_reason = some DisabledReason.tooManyFailures) →
      (acquire_context_select s).1.entries = s.entries.map healOne ∧
      (acquire_context_select s).2 =
        select_next_credential { s with entries := s.entries.map healOne } ∧
      ((acquire_context_select s).2).isSome = true ∧
      (∀ i c, select_next_credential { s with entries := s.entries.map healOne } =
        some (i, c) → (acquire_context_select s).1.current_id = i) ∧
      (∀ e ∈ s.entries,
        e.disabled_reason = some DisabledReason.tooManyFailures →
        healOne e = { e with disabled := false, disabled_reason := none,
                             failure_count := 0 }) ∧
      (∀ e ∈ s.entries,
        e.disabled_reason ≠ some DisabledReason.tooManyFailures →
        healOne e = e)) ∧
    ((¬ ∃ e ∈ s.entries, e.disabled_reason = some DisabledReason.tooManyFailures) →
      acquire_context_select s = (s, none)) := by
  have hhit : s.entries.find? (fun e => e.id == s.current_id && !e.disabled) = none :=
    List.find?_eq_none.mpr (fun x hx => by simp [hAll x hx])
  have hsel : select_next_credential s = none := by
    have hnil : s.entries.filter (fun e => !e.disabled) = [] :=
      List.filter_eq_nil_iff.mpr (fun a ha => by simp [hAll a ha])
    unfold select_next_credential
    rw [hnil]
    rfl
  constructor
  · intro hTMF
    have hany : s.entries.any (fun e =>
        e.disabled && e.disabled_reason == some DisabledReason.tooManyFailures) = true := by
      rcases hTMF with ⟨e, he, hr⟩
      exact List.any_eq_true.mpr ⟨e, he, by simp [hAll e he, hr]⟩
    have hne : ({ s with entries := s.entries.map healOne } : PoolState).entries.filter
        (fun e => !e.disabled) ≠ [] := by
      rcases hTMF with ⟨e, he, hr⟩
      intro hnil
      have hmem : healOne e ∈ (s.entries.map healOne).filter (fun e => !e.disabled) := by
        refine List.mem_filter.mpr ⟨List.mem_map_of_mem healOne he, ?_⟩
        simp [healOne, hr]
      rw [show ({ s with entries := s.entries.map healOne } : PoolState).entries
          = s.entries.map healOne from rfl] at hnil
      rw [hnil] at hmem
      exact absurd hmem (List.not_mem_nil _)
    have hselSome : (select_next_credential
        { s with entries := s.entries.map healOne }).isSome = true := by
      unfold select_next_credential
      rw [if_neg (by simpa [List.isEmpty_iff] using hne)]
      split
      · obtain ⟨a, ha⟩ := Option.isSome_iff_exists.mp (minByPair_isSome _ _ hne)
        rw [ha]
        rfl
      · obtain ⟨a, ha⟩ := Option.isSome_iff_exists.mp (minByNat_isSome _ _ hne)
        rw [ha]
        rfl
    obtain ⟨⟨i, c⟩, hic⟩ := Option.isSome_iff_exists.mp hselSome
    have heval : acquire_context_select s =
        ({ { s with entries := s.entries.map healOne } with current_id := i },
          some (i, c)) := by
      unfold acquire_context_select
      rw [hhit]
      simp only [Option.map_none', ite_self]
      rw [hsel, hany]
      simp only [if_true]
      rw [hic]
    refine ⟨by rw [heval], by rw [heval, hic], by rw [heval]; rfl, ?_, ?_, ?_⟩
    · intro i' c' hic'
      rw [hic] at hic'
      rw [heval]
      exact (Prod.mk.injEq _ _ _ _).mp (Option.some.inj hic') |>.1.symm ▸ rfl
    · intro e _ hr
      unfold healOne
      rw [if_pos hr]
    · intro e _ hr
      unfold healOne
      rw [if_neg hr]
  · intro hTMF
    have hany : s.entries.any (fun e =>
        e.disabled && e.disabled_reason == some DisabledReason.tooManyFailures) = false := by
      rw [← Bool.not_eq_true, List.any_eq_true]
      rintro ⟨e, he, hb⟩
      exact hTMF ⟨e, he, by simpa [hAll e he] using hb⟩
    unfold acquire_context_select
    rw [hhit]
    simp only [Option.map_none', ite_self]
    rw [hsel, hany]
    rfl

/-- `entryA` auto-disabled after three consecutive failures. -/
def entryATMF : CredentialEntry :=
  { entryA with disabled := true,
                disabled_reason := some DisabledReason.tooManyFailures,
                failure_count := 3 }

/-- A fully-disabled pool: entry 1 by `TooManyFailures`, entry 2 by
`QuotaExceeded`. -/
def poolC1W : PoolState :=
  { entries := [entryATMF, entryBdis], current_id := 1, mode := "priority" }

/-- C1, witness: the self-heal evaluated on the concrete fully-disabled
pool with one `TooManyFailures` entry and one `QuotaExceeded` entry. -/
theorem c1_theorem_witness :
    (∀ e ∈ poolC1W.entries, e.disabled = true) ∧
    (((∃ e ∈ poolC1W.entries,
        e.disabled_reason = some DisabledReason.tooManyFailures) →
      (acquire_context_select poolC1W).1.entries = poolC1W.entries.map healOne ∧
      (acquire_context_select poolC1W).2 =
        select_next_credential
          { poolC1W with entries := poolC1W.entries.map healOne } ∧
      ((acquire_context_select poolC1W).2).isSome = true ∧
      (∀ i c, select_next_credential
          { poolC1W with entries := poolC1W.entries.map healOne } =
        some (i, c) → (acquire_context_select poolC1W).1.current_id = i) ∧
      (∀ e ∈ poolC1W.entries,
        e.disabled_reason = some DisabledReason.tooManyFailures →
        healOne e = { e with disabled := false, disabled_reason := none,
                             failure_count := 0 }) ∧
      (∀ e ∈ poolC1W.entries,
        e.disabled_reason ≠ some DisabledReason.tooManyFailures →
        healOne e = e)) ∧
    ((¬ ∃ e ∈ poolC1W.entries,
        e.disabled_reason = some DisabledReason.tooManyFailures) →
      acquire_context_select poolC1W = (poolC1W, none))) :=
  ⟨by decide, c1_theorem poolC1W (by decide)⟩

/- ===================== C9 ===================== -/

/-- C9: in every reachable state of the refresh-barrier system, a
refreshing task holds the lock and at most one task is refreshing at
any instant — upstream token-refresh requests never overlap within the
process. -/
theorem c9_theorem (s : RefreshSystem) (h : RefreshReachable s) :
    (∀ i, s.phase i = RefreshPhase.refreshing → s.lockHeld = true) ∧
    (∀ i j, s.phase i = RefreshPhase.refreshing →
      s.phase j = RefreshPhase.refreshing → i = j) := by
  induction h with
  | init =>
      exact ⟨fun i h => by simp [refreshInit] at h,
             fun i j hi _ => by simp [refreshInit] at hi⟩
  | step _ hstep ih =>
      obtain ⟨ih1, ih2⟩ := ih
      cases hstep with
      | request i hphase =>
          constructor
          · intro k hk
            dsimp only at hk ⊢
            by_cases hki : k = i
            · subst hki
              rw [Function.update_same] at hk
              exact absurd hk (by simp)
            · rw [Function.update_noteq hki] at hk
              exact ih1 k hk
          · intro k l hk hl
            dsimp only at hk hl
            by_cases hki : k = i
            · subst hki
              rw [Function.update_same] at hk
              exact absurd hk (by simp)
            · by_cases hli : l = i
              · subst hli
                rw [Function.update_same] at hl
                exact absurd hl (by simp)
              · rw [Function.update_noteq hki] at hk
                rw [Function.update_noteq hli] at hl
                exact ih2 k l hk hl
      | acquire i hphase hlock =>
          constructor
          · intro k _
            rfl
          · intro k l hk hl
            dsimp only at hk hl
            by_cases hki : k = i
            · by_cases hli : l = i
              · rw [hki, hli]
              · subst hki
                rw [Function.update_noteq hli] at hl
                have := ih1 l hl
                rw [hlock] at this
                exact absurd this (by simp)
            · rw [Function.update_noteq hki] at hk
              have := ih1 k hk
              rw [hlock] at this
              exact absurd this (by simp)
      | finish i hphase =>
          constructor
          · intro k hk
            dsimp only at hk ⊢
            by_cases hki : k = i
            · subst hki
              rw [Function.update_same] at hk
              exact absurd hk (by simp)
            · rw [Function.update_noteq hki] at hk
              exact absurd (ih2 k i hk hphase) hki
          · intro k l hk hl
            dsimp only at hk hl
            by_cases hki : k = i
            · subst hki
              rw [Function.update_same] at hk
              exact absurd hk (by simp)
            · rw [Function.update_noteq hki] at hk
              exact absurd (ih2 k i hk hphase) hki

/-- The refresh-barrier state in which task 0 went through
request/acquire and is refreshing while holding the lock. -/
def refreshW : RefreshSystem :=
  { phase := Function.update
      (Function.update refreshInit.phase 0 RefreshPhase.waiting) 0
      RefreshPhase.refreshing,
    lockHeld := true }

/-- `refreshW` is reachable: task 0 requests, then acquires the barrier. -/
theorem refreshW_reachable : RefreshReachable refreshW :=
  RefreshReachable.step
    (RefreshReachable.step RefreshReachable.init
      (RefreshStep.request refreshInit 0 rfl))
    (RefreshStep.acquire _ 0 (by simp [refreshInit]) rfl)

/-- C9, witness: mutual exclusion evaluated on the concrete reachable
state `refreshW`, whose task 0 is refreshing. -/
theorem c9_theorem_witness :
    (∀ i, refreshW.phase i = RefreshPhase.refreshing →
      refreshW.lockHeld = true) ∧
    (∀ i j, refreshW.phase i = RefreshPhase.refreshing →
      refreshW.phase j = RefreshPhase.refreshing → i = j) :=
  c9_theorem refreshW refreshW_reachable

/- ===================== C5 ===================== -/

/-- The spec invariant on an entry list: a non-disabled entry has no
disabled reason. -/
def EntriesInv (l : List CredentialEntry) : Prop :=
  ∀ e ∈ l, e.disabled = false → e.disabled_reason = none

/-- `updateFirst` preserves the invariant when the replacement does. -/
theorem EntriesInv_updateFirst {l : List CredentialEntry}
    {p : CredentialEntry → Bool} {f : CredentialEntry → CredentialEntry}
    (hl : EntriesInv l)
    (hf : ∀ y ∈ l, p y = true → (f y).disabled = false →
      (f y).disabled_reason = none) :
    EntriesInv (updateFirst p f l) := by
  intro x hx hxd
  rcases mem_updateFirst hx with h | ⟨y, hy, hpy, rfl⟩
  · exact hl x h hxd
  · exact hf y hy hpy hxd

/-- Entries produced by pool bootstrap satisfy the invariant (they all
carry no disabled reason). -/
theorem assignIds_entriesInv (gen : KiroCredentials → Option String) :
    ∀ (n : Nat) (cs : List KiroCredentials), EntriesInv (assignIds gen n cs) := by
  intro n cs
  induction cs generalizing n with
  | nil => intro e he _; simp [assignIds] at he
  | cons c cs ih =>
      intro e he hd
      simp only [assignIds] at he
      rcases List.mem_cons.mp he with rfl | h'
      · rfl
      · exact ih _ e h' hd

/-- The healed entry list satisfies the invariant whenever the original
does. -/
theorem EntriesInv_heal {l : List CredentialEntry} (hl : EntriesInv l) :
    EntriesInv (l.map healOne) := by
  intro x hx hxd
  rcases List.mem_map.mp hx with ⟨y, hy, rfl⟩
  unfold healOne at hxd ⊢
  by_cases hr : y.disabled_reason = some DisabledReason.tooManyFailures
  · rw [if_pos hr]
  · rw [if_neg hr] at hxd ⊢
    exact hl y hy hxd

/-- The selection phase of `acquire_context` either keeps the entry
list or replaces it by its healed version. -/
theorem acquire_context_select_entries (s : PoolState) :
    (acquire_context_select s).1.entries = s.entries ∨
    (acquire_context_select s).1.entries = s.entries.map healOne := by
  unfold acquire_context_select
  dsimp only
  repeat' split
  all_goals first | exact Or.inl rfl | exact Or.inr rfl

/-- The reachable pool states: bootstrapped by `pool_new` and closed
under every pool operation, including the self-heal performed inside
`acquire_context`. -/
inductive Reachable : PoolState → Prop where
  | boot (gen : KiroCredentials → Option String) (mode : String)
      (creds : List KiroCredentials) (s : PoolState) :
      pool_new gen mode creds = Except.ok s → Reachable s
  | success (s : PoolState) (id : Nat) (now : String) :
      Reachable s → Reachable (report_success s id now)
  | failure (s : PoolState) (id : Nat) (now : String) :
      Reachable s → Reachable (report_failure s id now).1
  | quota (s : PoolState) (id : Nat) (now : String) :
      Reachable s → Reachable (report_quota_exhausted s id now).1
  | disable (s : PoolState) (id : Nat) (b : Bool) (s' : PoolState) :
      Reachable s → set_disabled s id b = Except.ok s' → Reachable s'
  | prio (s : PoolState) (id p : Nat) (s' : PoolState) :
      Reachable s → set_priority s id p = Except.ok s' → Reachable s'
  | reset (s : PoolState) (id : Nat) (s' : PoolState) :
      Reachable s → reset_and_enable s id = Except.ok s' → Reachable s'
  | add (s : PoolState) (cred : KiroCredentials) :
      Reachable s → Reachable (add_credential_entry s cred)
  | del (s : PoolState) (id : Nat) (s' : PoolState) :
      Reachable s → delete_credential s id = Except.ok s' → Reachable s'
  | acquire (s : PoolState) :
      Reachable s → Reachable (acquire_context_select s).1

/-- C5: in every reachable pool state, a non-disabled entry carries no
disabled reason. -/
theorem c5_theorem (s : PoolState) (h : Reachable s) :
    ∀ e ∈ s.entries, e.disabled = false → e.disabled_reason = none := by
  induction h with
  | boot gen mode creds s hnew =>
      simp only [pool_new] at hnew
      split at hnew
      · obtain rfl := (Except.ok.injEq _ _).mp hnew
        exact assignIds_entriesInv gen _ creds
      · exact absurd hnew (by simp)
  | success s id now _ ih =>
      simp only [report_success]
      split
      · exact ih
      · exact EntriesInv_updateFirst ih (fun y hy _ hd => ih y hy hd)
  | failure s id now _ ih =>
      simp only [report_failure]
      split
      · exact ih
      · next e heq =>
          refine EntriesInv_updateFirst ih (fun y hy _ => ?_)
          split
          · intro hd
            simp at hd
          · intro hd
            exact ih e (List.mem_of_find?_eq_some heq) hd
  | quota s id now _ ih =>
      simp only [report_quota_exhausted]
      split
      · exact ih
      · next e heq =>
          split
          · exact ih
          · split
            · refine EntriesInv_updateFirst ih (fun y hy _ hd => ?_)
              simp at hd
            · refine EntriesInv_updateFirst ih (fun y hy _ hd => ?_)
              simp at hd
  | disable s id b s' _ hop ih =>
      simp only [set_disabled] at hop
      split at hop
      · exact absurd hop (by simp)
      · obtain rfl := (Except.ok.injEq _ _).mp hop
        refine EntriesInv_updateFirst ih (fun y hy _ => ?_)
        split
        · intro hd
          simp at hd
        · intro _
          rfl
  | prio s id p s' _ hop ih =>
      simp only [set_priority] at hop
      split at hop
      · exact absurd hop (by simp)
      · obtain rfl := (Except.ok.injEq _ _).mp hop
        intro x hx hxd
        rw [select_highest_priority_entries] at hx
        dsimp only at hx
        rcases mem_updateFirst hx with h' | ⟨y, hy, hpy, rfl⟩
        · exact ih x h' hxd
        · exact ih y hy hxd
  | reset s id s' _ hop ih =>
      simp only [reset_and_enable] at hop
      split at hop
      · exact absurd hop (by simp)
      · obtain rfl := (Except.ok.injEq _ _).mp hop
        exact EntriesInv_updateFirst ih (fun y hy _ _ => rfl)
  | add s cred _ ih =>
      simp only [add_credential_entry]
      intro e he hd
      rcases List.mem_append.mp he with h' | h'
      · exact ih e h' hd
      · rcases List.mem_singleton.mp h' with rfl
        rfl
  | del s id s' _ hop ih =>
      simp only [delete_credential] at hop
      split at hop
      · exact absurd hop (by simp)
      · next e heq =>
          split at hop
          · exact absurd hop (by simp)
          · obtain rfl := (Except.ok.injEq _ _).mp hop
            intro x hx hxd
            refine ih x ?_ hxd
            split at hx <;> (try dsimp only at hx) <;> split at hx <;>
              first
                | (rw [select_highest_priority_entries] at hx
                   exact (List.mem_filter.mp hx).1)
                | exact (List.mem_filter.mp hx).1
  | acquire s _ ih =>
      rcases acquire_context_select_entries s with h | h
      · intro e he
        rw [h] at he
        exact ih e he
      · intro e he
        rw [h] at he
        exact EntriesInv_heal ih e he

/-- C5, witness: the invariant evaluated on entry 1 of the pool
bootstrapped from `credA`, reachable via `pool_new`. -/
theorem c5_theorem_witness :
    entryA.disabled = false ∧ entryA.disabled_reason = none :=
  ⟨by decide,
   c5_theorem poolC3W
     (Reachable.boot (fun _ => none) ("priority") [credA] poolC3W (by decide))
     entryA (by decide) (by decide)⟩
